import Mathlib

/-!
Verification development for the speech-intelligence application.

The development shallowly embeds the three source files:
  * `services/geminiService.ts` — the Analysis Client: response sanitization
    (fence stripping), JSON parsing, and structural validation;
  * `App.tsx` — the Application State Controller: the `{file, analysis,
    appState, error, inputMode, analysisTime}` state and its handlers;
  * the `AudioUploader` component — the Audio Capture Adapter: the recording
    session life-cycle (`handleStartRecording`, `handleStopRecording`,
    `cleanupRecording`, unmount cleanup).

JS strings are modelled as `List Char` (one element per UTF-16 unit /
scalar; whitespace classes are modelled over their ASCII + NBSP members).
JSON numbers are modelled exactly as `m * 10 ^ e` with `m : Int`, `e : Int`;
floating-point rounding is not modelled (no claim depends on it).
`performance.now()` timestamps are modelled as rationals.
-/

/-! ## JSON values and a model of `JSON.parse` -/

/-- The value space of `JSON.parse`: null, booleans, numbers (exact decimal
`m * 10 ^ e`), strings, arrays and objects (fields in textual order,
duplicates kept; property lookup takes the last occurrence, as later
duplicate keys overwrite earlier ones in JS). -/
inductive Json where
  | jnull : Json
  | jbool : Bool → Json
  | jnum : Int → Int → Json
  | jstr : List Char → Json
  | jarr : List Json → Json
  | jobj : List (List Char × Json) → Json

def lbrace : Char := Char.ofNat 123

def rbrace : Char := Char.ofNat 125

/-- The JSON whitespace characters accepted between tokens by `JSON.parse`. -/
def isJsonWs (c : Char) : Bool :=
  c == ' ' || c == '\t' || c == '\n' || c == '\r'

def skipWs (l : List Char) : List Char := l.dropWhile isJsonWs

def digitsToNat (ds : List Char) : Nat :=
  ds.foldl (fun a c => a * 10 + (c.toNat - 48)) 0

def hexDigit? (c : Char) : Option Nat :=
  if c.isDigit then some (c.toNat - 48)
  else if 'a' ≤ c ∧ c ≤ 'f' then some (c.toNat - 87)
  else if 'A' ≤ c ∧ c ≤ 'F' then some (c.toNat - 55)
  else none

def consMap (c : Char) (o : Option (List Char × List Char)) :
    Option (List Char × List Char) :=
  match o with
  | some (s, r) => some (c :: s, r)
  | none => none

/-- String body parser (after the opening quote): JSON escape sequences,
raw control characters rejected. -/
def pStr : Nat → List Char → Option (List Char × List Char)
  | 0, _ => none
  | _, [] => none
  | fuel + 1, c :: rest =>
    if c = '"' then some ([], rest)
    else if c = '\\' then
      match rest with
      | [] => none
      | e :: r2 =>
        if e = '"' then consMap '"' (pStr fuel r2)
        else if e = '\\' then consMap '\\' (pStr fuel r2)
        else if e = '/' then consMap '/' (pStr fuel r2)
        else if e = 'b' then consMap (Char.ofNat 8) (pStr fuel r2)
        else if e = 'f' then consMap (Char.ofNat 12) (pStr fuel r2)
        else if e = 'n' then consMap '\n' (pStr fuel r2)
        else if e = 'r' then consMap '\r' (pStr fuel r2)
        else if e = 't' then consMap '\t' (pStr fuel r2)
        else if e = 'u' then
          match r2 with
          | h1 :: h2 :: h3 :: h4 :: r3 =>
            match hexDigit? h1, hexDigit? h2, hexDigit? h3, hexDigit? h4 with
            | some a, some b, some c2, some d =>
              consMap (Char.ofNat (((a * 16 + b) * 16 + c2) * 16 + d)) (pStr fuel r3)
            | _, _, _, _ => none
          | _ => none
        else none
    else if c.toNat < 32 then none
    else consMap c (pStr fuel rest)

/-- Exponent sign and digits of a JSON number. -/
def pExpSign (r : List Char) : Option (Int × List Char) :=
  let sr : Int × List Char :=
    match r with
    | '+' :: r2 => (1, r2)
    | '-' :: r2 => (-1, r2)
    | _ => (1, r)
  let ds := sr.2.takeWhile Char.isDigit
  if ds.isEmpty then none
  else some (sr.1 * (digitsToNat ds : Int), sr.2.dropWhile Char.isDigit)

/-- Optional exponent part of a JSON number. -/
def pExp (l : List Char) : Option (Int × List Char) :=
  match l with
  | 'e' :: r => pExpSign r
  | 'E' :: r => pExpSign r
  | _ => some (0, l)

/-- Optional fraction part of a JSON number (digits after the dot). -/
def pFrac (l : List Char) : Option (List Char × List Char) :=
  match l with
  | '.' :: r =>
    let ds := r.takeWhile Char.isDigit
    if ds.isEmpty then none else some (ds, r.dropWhile Char.isDigit)
  | _ => some ([], l)

/-- JSON number parser: `-?(0|[1-9][0-9]*)(\.[0-9]+)?([eE][+-]?[0-9]+)?`,
kept exactly as `m * 10 ^ e`. -/
def pNum (l : List Char) : Option (Json × List Char) :=
  let nl : Bool × List Char :=
    match l with
    | '-' :: r => (true, r)
    | _ => (false, l)
  let intDs := nl.2.takeWhile Char.isDigit
  if intDs.isEmpty then none
  else if 2 ≤ intDs.length ∧ intDs.headD 'x' = '0' then none
  else
    match pFrac (nl.2.dropWhile Char.isDigit) with
    | none => none
    | some (fracDs, l2) =>
      match pExp l2 with
      | none => none
      | some (ex, l3) =>
        let mAbs : Int := (digitsToNat (intDs ++ fracDs) : Int)
        some (.jnum (if nl.1 then -mAbs else mAbs) (ex - (fracDs.length : Int)), l3)

mutual

/-- JSON value parser (fuel-driven; fuel bounds the nesting depth and is
instantiated with more than the input length, which always suffices). -/
def pVal : Nat → List Char → Option (Json × List Char)
  | 0, _ => none
  | fuel + 1, l =>
    match skipWs l with
    | [] => none
    | c :: r =>
      if c = lbrace then
        match skipWs r with
        | c2 :: r2 =>
          if c2 = rbrace then some (.jobj [], r2)
          else pMembers fuel (skipWs r) []
        | [] => none
      else if c = '[' then
        match skipWs r with
        | ']' :: r2 => some (.jarr [], r2)
        | _ => pElems fuel (skipWs r) []
      else if c = '"' then
        match pStr (r.length + 1) r with
        | some (s, rest) => some (.jstr s, rest)
        | none => none
      else
        match c :: r with
        | 't' :: 'r' :: 'u' :: 'e' :: rest => some (.jbool true, rest)
        | 'f' :: 'a' :: 'l' :: 's' :: 'e' :: rest => some (.jbool false, rest)
        | 'n' :: 'u' :: 'l' :: 'l' :: rest => some (.jnull, rest)
        | l2 => pNum l2

/-- Object member list parser (called at the first character of a key). -/
def pMembers : Nat → List Char → List (List Char × Json) →
    Option (Json × List Char)
  | 0, _, _ => none
  | fuel + 1, l, acc =>
    match l with
    | '"' :: r =>
      match pStr (r.length + 1) r with
      | none => none
      | some (k, r2) =>
        match skipWs r2 with
        | ':' :: r3 =>
          match pVal fuel r3 with
          | none => none
          | some (v, r4) =>
            match skipWs r4 with
            | c5 :: r5 =>
              if c5 = ',' then pMembers fuel (skipWs r5) (acc ++ [(k, v)])
              else if c5 = rbrace then some (.jobj (acc ++ [(k, v)]), r5)
              else none
            | [] => none
        | _ => none
    | _ => none

/-- Array element list parser. -/
def pElems : Nat → List Char → List Json → Option (Json × List Char)
  | 0, _, _ => none
  | fuel + 1, l, acc =>
    match pVal fuel l with
    | none => none
    | some (v, r) =>
      match skipWs r with
      | c2 :: r2 =>
        if c2 = ',' then pElems fuel r2 (acc ++ [v])
        else if c2 = ']' then some (.jarr (acc ++ [v]), r2)
        else none
      | [] => none

end

/-- Model of `JSON.parse`: a single value, with only trailing whitespace
allowed after it; `none` models a thrown `SyntaxError`. -/
def parseJson (l : List Char) : Option Json :=
  match pVal (l.length + 1) l with
  | some (v, rest) => if (skipWs rest).isEmpty then some v else none
  | none => none

/-- Last-occurrence association lookup (later duplicate JSON keys overwrite
earlier ones in the object produced by `JSON.parse`). -/
def lookupLast (fs : List (List Char × Json)) (k : List Char) : Option Json :=
  match fs with
  | [] => none
  | (k2, v) :: rest =>
    match lookupLast rest k with
    | some r => some r
    | none => if k2 = k then some v else none

/-- JS property access `obj.k`: `undefined` (here `none`) on non-objects.
(On `null` JS instead throws a `TypeError`; in `getSpeechAnalysis` that throw
is caught by the same `catch` and wrapped into the same uniform error, so the
model folds it into the failed-validation outcome.) -/
def getField (j : Json) (k : List Char) : Option Json :=
  match j with
  | .jobj fs => lookupLast fs k
  | _ => none

/-- JS truthiness of `obj.k` as used in the validation on line 98 of
`geminiService.ts`: `undefined`, `null`, `false`, `0` and `""` are falsy. -/
def truthy (o : Option Json) : Bool :=
  match o with
  | none => false
  | some .jnull => false
  | some (.jbool b) => b
  | some (.jnum m _) => decide (m ≠ 0)
  | some (.jstr s) => !s.isEmpty
  | some (.jarr _) => true
  | some (.jobj _) => true

/-- `Array.isArray(obj.k)`. -/
def isArrayVal (o : Option Json) : Bool :=
  match o with
  | some (.jarr _) => true
  | _ => false

/-! ## Fence stripping and response processing (`geminiService.ts`) -/

/-- The JS string-trim / `\s` whitespace class (ASCII members plus NBSP). -/
def isJsStrWs (c : Char) : Bool :=
  c == ' ' || c == '\t' || c == '\n' || c == '\r' ||
  c == Char.ofNat 11 || c == Char.ofNat 12 || c == Char.ofNat 160

def rdropWhile (p : Char → Bool) (l : List Char) : List Char :=
  (l.reverse.dropWhile p).reverse

/-- Model of `String.prototype.trim`. -/
def jsTrim (l : List Char) : List Char :=
  rdropWhile isJsStrWs (l.dropWhile isJsStrWs)

/-- The regex word class `\w`. -/
def isWordChar (c : Char) : Bool := c.isAlphanum || c == '_'

def startsWithL : List Char → List Char → Bool
  | [], _ => true
  | _ :: _, [] => false
  | p :: ps, c :: cs => p == c && startsWithL ps cs

def endsWithL (p l : List Char) : Bool := startsWithL p.reverse l.reverse

def tickFence : List Char := "```".toList

/-- The fence-stripping step of `getSpeechAnalysis` (lines 89–93): match
`jsonStr` against `/^```(\w*)?\s*\n?(.*?)\n?\s*```$/s` and, when the lazy
middle group is non-empty, replace `jsonStr` by that group trimmed.

Because the pattern is anchored at both ends without the `m` flag, a match
requires the string to start and end with a triple backtick; the greedy
`(\w*)?\s*\n?` front absorbs the maximal word-character run followed by the
maximal whitespace run, and the lazy `(.*?)\n?\s*` split leaves the maximal
whitespace run before the closing fence outside the group, so the group
trimmed equals the core trimmed of a leading word-run. -/
def fenceExtract (s : List Char) : List Char :=
  if startsWithL tickFence s && endsWithL tickFence s && decide (6 ≤ s.length) then
    let core := (s.drop 3).take (s.length - 6)
    let g2 := jsTrim ((core.dropWhile isWordChar).dropWhile isJsStrWs)
    if g2.isEmpty then s else g2
  else s

def transcriptKey : List Char := "transcript".toList

def summaryKey : List Char := "summary".toList

def grammarKey : List Char := "grammarAnalysis".toList

def sentimentKey : List Char := "sentiment".toList

def labelKey : List Char := "label".toList

def explanationKey : List Char := "explanation".toList

/-- The success condition of the validation on line 98 of
`geminiService.ts`: the negation of
`!transcript || !summary || !Array.isArray(grammarAnalysis) || !sentiment`. -/
def validOk (v : Json) : Bool :=
  truthy (getField v transcriptKey) && truthy (getField v summaryKey) &&
  isArrayVal (getField v grammarKey) && truthy (getField v sentimentKey)

/-- The error outcomes of response processing. Both are re-thrown by the
`catch` block wrapped into one uniform `Error` whose message starts with
`"Gemini API Error: "`; the spec names this combined failure
`MalformedResponseError`.
`syntaxErr` models the `SyntaxError` thrown by `JSON.parse`;
`incompleteData` models
`Error("API returned incomplete or malformed JSON data.")`. -/
inductive RespErr where
  | syntaxErr : RespErr
  | incompleteData : RespErr
deriving DecidableEq

/-- The response-processing tail of `getSpeechAnalysis` (lines 86–102 of
`geminiService.ts`): trim the model's raw response text, defensively strip a
fenced code block, `JSON.parse` the result, validate its shape, and return
the parsed data unchanged. The network round trip preceding it is abstracted
to the raw `responseText` argument. -/
def getSpeechAnalysis (responseText : List Char) : Except RespErr Json :=
  match parseJson (fenceExtract (jsTrim responseText)) with
  | none => .error .syntaxErr
  | some parsedData =>
    if validOk parsedData then .ok parsedData else .error .incompleteData

/-- The fenced form of a response text considered by claim C4. -/
def fencedWrap (t : List Char) : List Char :=
  "```json\n".toList ++ t ++ "\n```".toList

/-! ## The Application State Controller (`App.tsx`) -/

/-- `AppState` from `types.ts`. -/
inductive WState where
  | idle : WState
  | analyzing : WState
  | success : WState
  | error : WState
deriving DecidableEq

/-- `InputMode` from `App.tsx`. -/
inductive InputMode where
  | upload : InputMode
  | record : InputMode
deriving DecidableEq

/-- A `File` value (an AudioInput): name, MIME type and content, the content
modelled as the list of the opaque chunk payloads concatenated into it. -/
structure AFile where
  name : String
  mimeType : String
  chunks : List Nat
deriving DecidableEq

/-- The controller state of `App.tsx`: the six `useState` cells, plus the
ghost field `pending` recording the start timestamps of `getSpeechAnalysis`
calls that have been dispatched but have not yet resolved (the code has no
cancellation, so several may be in flight). -/
structure CState where
  file : Option AFile
  analysis : Option Json
  appState : WState
  error : Option String
  inputMode : InputMode
  analysisTime : Option ℚ
  pending : List ℚ

def noFileMsg : String := "Please select or record a file first."

def analysisFailedMsg (m : String) : String := "Analysis Failed: " ++ m

/-- `handleFileChange` (lines 18–26): store the file, clear analysis, error
and duration; set `IDLE` only when the new file is non-null. -/
def handleFileChange (s : CState) (f : Option AFile) : CState :=
  { s with file := f, analysis := none, error := none, analysisTime := none,
           appState := if f.isSome then .idle else s.appState }

/-- The `!file` guard branch of `handleAnalyze` (lines 29–32): set the error
message and return; nothing else changes and no call is dispatched. -/
def handleAnalyzeGuard (s : CState) : CState :=
  { s with error := some noFileMsg }

/-- The synchronous prefix of `handleAnalyze` with a file present (lines
34–40): enter `ANALYZING`, clear error, analysis and duration, read the
start timestamp and dispatch the `getSpeechAnalysis` call. -/
def handleAnalyzeDispatch (s : CState) (t : ℚ) : CState :=
  { s with appState := .analyzing, error := none, analysis := none,
           analysisTime := none, pending := s.pending ++ [t] }

/-- The resumption of `handleAnalyze` after a successful call (lines 41–45):
record the duration `d = endTime - startTime`, store the result and enter
`SUCCESS`, all in one batch; `rest` is the pending list with this call
removed. The error message is not touched here. -/
def handleAnalyzeResolve (s : CState) (d : ℚ) (r : Json) (rest : List ℚ) :
    CState :=
  { s with analysisTime := some d, analysis := some r, appState := .success,
           pending := rest }

/-- The `catch` resumption of `handleAnalyze` (lines 46–51): set the error
message `"Analysis Failed: " ++ message` and enter `ERROR`. The stale
analysis and duration are not touched here. -/
def handleAnalyzeReject (s : CState) (m : String) (rest : List ℚ) : CState :=
  { s with error := some (analysisFailedMsg m), appState := .error,
           pending := rest }

/-- `handleReset` (lines 54–60). -/
def handleReset (s : CState) : CState :=
  { s with file := none, analysis := none, error := none,
           analysisTime := none, appState := .idle }

/-- A mode-switch tab click (lines 105–117): `handleReset()` followed by
`setInputMode(m)` in the same batch. -/
def switchMode (s : CState) (m : InputMode) : CState :=
  { handleReset s with inputMode := m }

/-- The controller events. `analyze t` is an invocation of `handleAnalyze`
with `t` the value `performance.now()` would return at dispatch;
`completeOk`/`completeErr` are the event-loop resumptions of an in-flight
call identified by its recorded start time. -/
inductive CEvent where
  | fileChange (f : Option AFile) : CEvent
  | analyze (t : ℚ) : CEvent
  | completeOk (tStart tEnd : ℚ) (r : Json) : CEvent
  | completeErr (tStart : ℚ) (m : String) : CEvent
  | reset : CEvent
  | modeSwitch (m : InputMode) : CEvent

/-- One serialized event-loop step of the controller. Handlers may be
invoked at any time (the presentation layer's button-disabling is not part
of the controller); completions require a matching in-flight call. -/
inductive CStep : CState → CEvent → CState → Prop where
  | fileChange (s : CState) (f : Option AFile) :
      CStep s (.fileChange f) (handleFileChange s f)
  | analyzeNoFile (s : CState) (t : ℚ) (h : s.file = none) :
      CStep s (.analyze t) (handleAnalyzeGuard s)
  | analyzeDispatch (s : CState) (t : ℚ) (f : AFile) (h : s.file = some f) :
      CStep s (.analyze t) (handleAnalyzeDispatch s t)
  | completeOk (s : CState) (t₁ t₂ : ℚ) (r : Json) (p₁ p₂ : List ℚ)
      (h : s.pending = p₁ ++ t₁ :: p₂) :
      CStep s (.completeOk t₁ t₂ r) (handleAnalyzeResolve s (t₂ - t₁) r (p₁ ++ p₂))
  | completeErr (s : CState) (t₁ : ℚ) (m : String) (p₁ p₂ : List ℚ)
      (h : s.pending = p₁ ++ t₁ :: p₂) :
      CStep s (.completeErr t₁ m) (handleAnalyzeReject s m (p₁ ++ p₂))
  | reset (s : CState) : CStep s .reset (handleReset s)
  | modeSwitch (s : CState) (m : InputMode) :
      CStep s (.modeSwitch m) (switchMode s m)

/-- The initial controller state (the six `useState` initializers). -/
def initC : CState := ⟨none, none, .idle, none, .upload, none, []⟩

def CGuard := CState → CEvent → Prop

/-- States reachable from the initial state by steps whose events satisfy
the environment guard `G`. -/
inductive CReachW (G : CGuard) : CState → Prop where
  | init : CReachW G initC
  | step {s : CState} {e : CEvent} {s' : CState} :
      CReachW G s → G s e → CStep s e s' → CReachW G s'

/-- Unrestricted reachability: any handler may fire at any time. -/
def CReach : CState → Prop := CReachW (fun _ _ => True)

/-- Environment guard: `handleAnalyze` is only invoked while a file is
present (as the Analyze button's `disabled={!file || ...}` enforces). -/
def guardFilePresent : CGuard := fun s e =>
  match e with
  | .analyze _ => s.file ≠ none
  | _ => True

/-- Environment guard: `handleAnalyze` is only invoked while a file is
present and no earlier call is still unresolved (serial analysis). -/
def guardSerial : CGuard := fun s e =>
  match e with
  | .analyze _ => s.file ≠ none ∧ s.pending = []
  | _ => True

/-- The auxiliary invariant establishing claim C2's amended form under
`guardSerial`. -/
def serialInv (s : CState) : Prop :=
  (s.analysis ≠ none → s.appState = .success) ∧
  (s.error ≠ none → s.appState = .error) ∧
  (s.pending ≠ [] → s.analysis = none ∧ s.error = none) ∧
  s.pending.length ≤ 1

/-! ## The Audio Capture Adapter (`AudioUploader`) -/

/-- A `MediaRecorder` value: the stream it records and its negotiated
`mimeType` (the empty string models an unavailable MIME type). -/
structure MRec where
  streamId : Nat
  mime : String
deriving DecidableEq

/-- The recorder component state: the four refs and three state cells of
`AudioUploader`, plus ghost fields — `pendingReq` for `getUserMedia`
requests in flight, `activeStreams` for streams acquired and not yet
stopped, `activeTimers` for intervals set and not yet cleared, and
`emitted` for the files handed to `onFileChange`. -/
structure RState where
  stream : Option Nat
  recorder : Option MRec
  chunks : List Nat
  timer : Option Nat
  isRecording : Bool
  seconds : Nat
  micError : Option String
  pendingReq : List Nat
  activeStreams : List Nat
  activeTimers : List Nat
  emitted : List AFile

def micDeniedMsg : String :=
  "Could not access microphone. Please check your browser permissions."

def micUnsupportedMsg : String :=
  "Audio recording is not supported by your browser."

/-- `cleanupRecording` (lines 174–185): clear the interval, stop every track
of the current stream, and null the recorder ref and the chunk buffer. -/
def cleanupRecording (s : RState) : RState :=
  { s with
    timer := none,
    activeTimers :=
      match s.timer with
      | some t => s.activeTimers.erase t
      | none => s.activeTimers,
    stream := none,
    activeStreams :=
      match s.stream with
      | some sid => s.activeStreams.erase sid
      | none => s.activeStreams,
    recorder := none,
    chunks := [] }

/-- The synchronous prefix of `handleStartRecording` on a supported
platform: `setMicError(null)` and the dispatch of `getUserMedia`. -/
def handleStartClick (s : RState) (req : Nat) : RState :=
  { s with micError := none, pendingReq := s.pendingReq ++ [req] }

/-- The unsupported-platform branch of `handleStartRecording` (lines
219–221), after the synchronous `setMicError(null)`. -/
def handleStartUnsupported (s : RState) : RState :=
  { s with micError := some micUnsupportedMsg }

/-- The resumption of `handleStartRecording` after `getUserMedia` resolves
(lines 191–213): store the stream, build a fresh `MediaRecorder` over it,
reset the chunk buffer, start, mark recording, zero the counter and set a
new one-second interval. Note that neither the previous stream nor the
previous interval is stopped first. -/
def handleStartGranted (s : RState) (sid tid : Nat) (mime : String)
    (rest : List Nat) : RState :=
  { s with stream := some sid,
           recorder := some ⟨sid, mime⟩,
           chunks := [],
           isRecording := true,
           seconds := 0,
           timer := some tid,
           pendingReq := rest,
           activeStreams := s.activeStreams ++ [sid],
           activeTimers := s.activeTimers ++ [tid] }

/-- The `catch` resumption of `handleStartRecording` (lines 214–218):
surface the permission message and run `cleanupRecording`. -/
def handleStartDenied (s : RState) (rest : List Nat) : RState :=
  cleanupRecording { s with micError := some micDeniedMsg, pendingReq := rest }

/-- The `ondataavailable` handler (lines 196–198). -/
def handleDataAvailable (s : RState) (c : Nat) : RState :=
  { s with chunks := s.chunks ++ [c] }

/-- `mediaRecorderRef.current?.mimeType || 'audio/webm'` (line 201). -/
def effMime (r : Option MRec) : String :=
  match r with
  | none => "audio/webm"
  | some mr => if mr.mime = "" then "audio/webm" else mr.mime

def recordedName (ts : String) : String := "recording-" ++ ts ++ ".webm"

/-- `handleStopRecording` (lines 224–229) together with the `onstop`
handler it triggers (lines 200–206): stop recording, concatenate the
buffered chunks into a blob tagged with the negotiated MIME type, wrap it
as a timestamp-named file, emit it through `onFileChange`, and run
`cleanupRecording`. -/
def handleStopRecording (s : RState) (ts : String) : RState :=
  cleanupRecording
    { s with isRecording := false,
             emitted := s.emitted ++
               [⟨recordedName ts, effMime s.recorder, s.chunks⟩] }

/-- The `useEffect` unmount cleanup (lines 232–236). -/
def handleUnmount (s : RState) : RState := cleanupRecording s

/-- Recorder events. `clickStart` is a click on the start control (rendered
only while not recording); `grant`/`deny` are the resolutions of an
in-flight `getUserMedia` request; `clickStop` carries the timestamp string
used in the recording's file name. -/
inductive REvent where
  | clickStart (req : Nat) : REvent
  | clickStartUnsupported : REvent
  | grant (req sid tid : Nat) (mime : String) : REvent
  | deny (req : Nat) : REvent
  | data (c : Nat) : REvent
  | tick : REvent
  | clickStop (ts : String) : REvent
  | unmount : REvent

/-- One serialized event-loop step of the recorder component. Start clicks
require `isRecording = false` because the start button is rendered only in
that case (`renderRecorder`, lines 264–283); grants pick fresh stream and
timer identities (each `getUserMedia` resolution and each `setInterval`
yields a new object/id). -/
inductive RStep : RState → REvent → RState → Prop where
  | clickStart (s : RState) (req : Nat) (hrec : s.isRecording = false)
      (hfresh : req ∉ s.pendingReq) :
      RStep s (.clickStart req) (handleStartClick s req)
  | clickStartUnsupported (s : RState) (hrec : s.isRecording = false) :
      RStep s .clickStartUnsupported (handleStartUnsupported s)
  | grant (s : RState) (req sid tid : Nat) (mime : String) (p₁ p₂ : List Nat)
      (hp : s.pendingReq = p₁ ++ req :: p₂)
      (hs : sid ∉ s.activeStreams) (ht : tid ∉ s.activeTimers) :
      RStep s (.grant req sid tid mime) (handleStartGranted s sid tid mime (p₁ ++ p₂))
  | deny (s : RState) (req : Nat) (p₁ p₂ : List Nat)
      (hp : s.pendingReq = p₁ ++ req :: p₂) :
      RStep s (.deny req) (handleStartDenied s (p₁ ++ p₂))
  | data (s : RState) (c : Nat) (mr : MRec) (h : s.recorder = some mr) :
      RStep s (.data c) (handleDataAvailable s c)
  | tick (s : RState) (t : Nat) (h : s.timer = some t) :
      RStep s .tick { s with seconds := s.seconds + 1 }
  | clickStop (s : RState) (ts : String) (mr : MRec) (h : s.recorder = some mr) :
      RStep s (.clickStop ts) (handleStopRecording s ts)
  | unmount (s : RState) : RStep s .unmount (handleUnmount s)

/-- The initial recorder state (the refs' and state cells' initializers). -/
def initR : RState := ⟨none, none, [], none, false, 0, none, [], [], [], []⟩

def RGuard := RState → REvent → Prop

/-- Recorder states reachable under the environment guard `G`. -/
inductive RReachW (G : RGuard) : RState → Prop where
  | init : RReachW G initR
  | step {s : RState} {e : REvent} {s' : RState} :
      RReachW G s → G s e → RStep s e s' → RReachW G s'

/-- Unrestricted recorder reachability. -/
def RReach : RState → Prop := RReachW (fun _ _ => True)

/-- Environment guard: no start click while a `getUserMedia` request is
still unresolved (microphone grants never overlap further start clicks). -/
def guardSerialStart : RGuard := fun s e =>
  match e with
  | .clickStart _ => s.pendingReq = []
  | _ => True

/-- The auxiliary invariant establishing claim C5's amended form under
`guardSerialStart`. -/
def startInv (s : RState) : Prop :=
  (s.activeStreams = [] ∧ s.stream = none ∨
    ∃ sid, s.activeStreams = [sid] ∧ s.stream = some sid ∧ s.isRecording = true) ∧
  (s.pendingReq ≠ [] → s.activeStreams = [] ∧ s.stream = none) ∧
  s.pendingReq.length ≤ 1

/-- Nodup ghost invariant for streams and timers (fresh identities only). -/
def nodupInv (s : RState) : Prop :=
  s.activeStreams.Nodup ∧ s.activeTimers.Nodup

/-! ## Concrete fixtures used by witnesses and counterexamples -/

set_option maxRecDepth 10000

/-- A complete, valid model response text. -/
def tGood : List Char :=
  "\x7b\"transcript\":\"hi\",\"summary\":\"ok\",\"grammarAnalysis\":[],\"sentiment\":\x7b\"label\":\"Positive\",\"explanation\":\"e\"\x7d\x7d".toList

/-- The parse of `tGood`. -/
def vGood : Json :=
  Json.jobj [ (transcriptKey, Json.jstr ("hi".toList)),
              (summaryKey, Json.jstr ("ok".toList)),
              (grammarKey, Json.jarr []),
              (sentimentKey, Json.jobj [ (labelKey, Json.jstr ("Positive".toList)),
                                         (explanationKey, Json.jstr ("e".toList)) ]) ]

/-- A response text whose sentiment label lies outside the documented label
set and whose single grammar entry has none of the documented fields. -/
def tBad : List Char :=
  "\x7b\"transcript\":\"a\",\"summary\":\"b\",\"grammarAnalysis\":[\x7b\x7d],\"sentiment\":\x7b\"label\":\"Angry\",\"explanation\":\"x\"\x7d\x7d".toList

/-- The parse of `tBad`. -/
def vBad : Json :=
  Json.jobj [ (transcriptKey, Json.jstr ("a".toList)),
              (summaryKey, Json.jstr ("b".toList)),
              (grammarKey, Json.jarr [Json.jobj []]),
              (sentimentKey, Json.jobj [ (labelKey, Json.jstr ("Angry".toList)),
                                         (explanationKey, Json.jstr ("x".toList)) ]) ]

/-- The closed sentiment label set documented in the prompt and `types.ts`. -/
def allowedLabels : List (List Char) :=
  [ "Positive".toList, "Negative".toList, "Neutral".toList, "Mixed".toList ]

/-- Membership of a label in the closed set, as a boolean. -/
def labelAllowed (l : List Char) : Bool := allowedLabels.contains l

def originalKey : List Char := "original".toList

def issueKey : List Char := "issue".toList

def suggestionKey : List Char := "suggestion".toList

def tipKey : List Char := "tip".toList

/-- A concrete uploaded file. -/
def f0 : AFile := ⟨"a.mp3", "audio/mpeg", []⟩

/-- A controller state with one analysis call in flight (start time 1). -/
def sW : CState := ⟨some f0, none, .analyzing, none, .upload, none, [1]⟩

/-- A recorder state with one active session whose recorder reports no
MIME type and whose chunk buffer is empty. -/
def sG : RState := handleStartGranted (handleStartClick initR 0) 5 11 "" []

/-! ## Theorems -/

/-- Any single recorder step preserves unrestricted reachability. -/
theorem RReach_step {s : RState} {e : REvent} {s' : RState}
    (hr : RReach s) (hstep : RStep s e s') : RReach s' :=
  RReachW.step hr trivial hstep

/-- Appending a fresh element preserves `Nodup`. -/
theorem nodup_append_single {l : List Nat} {a : Nat}
    (h : l.Nodup) (ha : a ∉ l) : (l ++ [a]).Nodup := by
  rw [List.nodup_append]
  refine ⟨h, List.nodup_singleton a, ?_⟩
  intro x hx hxa
  rw [List.mem_singleton] at hxa
  subst hxa
  exact ha hx

/-- An element is gone after erasing it from a duplicate-free list. -/
theorem not_mem_eraseSelf {l : List Nat} {x : Nat} (h : l.Nodup) :
    x ∉ l.erase x :=
  fun hm => ((List.Nodup.mem_erase_iff h).mp hm).1 rfl

/-- In every reachable recorder state the ghost lists of unstopped streams
and uncancelled timers are duplicate-free (identities are fresh). -/
theorem nodup_reach : ∀ s, RReach s → nodupInv s := by
  intro s0 h
  induction h with
  | init => exact ⟨List.nodup_nil, List.nodup_nil⟩
  | @step s e s' hr hg hstep ih =>
    obtain ⟨ih1, ih2⟩ := ih
    cases hstep with
    | clickStart req hrec hfresh => exact ⟨ih1, ih2⟩
    | clickStartUnsupported hrec => exact ⟨ih1, ih2⟩
    | grant req sid tid mime p₁ p₂ hp hs ht =>
      exact ⟨nodup_append_single ih1 hs, nodup_append_single ih2 ht⟩
    | deny req p₁ p₂ hp =>
      constructor
      · show (match s.stream with
          | some sid => s.activeStreams.erase sid
          | none => s.activeStreams).Nodup
        cases s.stream with
        | none => exact ih1
        | some sid => exact ih1.erase sid
      · show (match s.timer with
          | some t => s.activeTimers.erase t
          | none => s.activeTimers).Nodup
        cases s.timer with
        | none => exact ih2
        | some t => exact ih2.erase t
    | data c mr h => exact ⟨ih1, ih2⟩
    | tick t h => exact ⟨ih1, ih2⟩
    | clickStop ts mr h =>
      constructor
      · show (match s.stream with
          | some sid => s.activeStreams.erase sid
          | none => s.activeStreams).Nodup
        cases s.stream with
        | none => exact ih1
        | some sid => exact ih1.erase sid
      · show (match s.timer with
          | some t => s.activeTimers.erase t
          | none => s.activeTimers).Nodup
        cases s.timer with
        | none => exact ih2
        | some t => exact ih2.erase t
    | unmount =>
      constructor
      · show (match s.stream with
          | some sid => s.activeStreams.erase sid
          | none => s.activeStreams).Nodup
        cases s.stream with
        | none => exact ih1
        | some sid => exact ih1.erase sid
      · show (match s.timer with
          | some t => s.activeTimers.erase t
          | none => s.activeTimers).Nodup
        cases s.timer with
        | none => exact ih2
        | some t => exact ih2.erase t

/-- C1 (counterexample): invoking `handleAnalyze` from the initial state,
where no file is present, sets the error message but leaves the workflow
state at `IDLE` — the controller does not transition to the `ERROR` state,
contrary to the claim (the guard branch never calls `setAppState`). -/
theorem C1_counterexample :
    CStep initC (.analyze 0) (handleAnalyzeGuard initC) ∧
    (handleAnalyzeGuard initC).error = some noFileMsg ∧
    ((handleAnalyzeGuard initC).appState == WState.error) = false :=
  ⟨CStep.analyzeNoFile initC 0 rfl, rfl, rfl⟩

/-- C1 (amended): invoking `handleAnalyze` while no AudioInput is present
sets the error message `"Please select or record a file first."` and
attempts no remote call (the in-flight set is unchanged), but leaves the
workflow state, the analysis, the duration and the file unchanged rather
than transitioning to the Error state. -/
theorem C1_theorem : ∀ (s : CState) (t : ℚ) (s' : CState),
    CStep s (.analyze t) s' → s.file = none →
    s'.error = some noFileMsg ∧ s'.appState = s.appState ∧
    s'.analysis = s.analysis ∧ s'.analysisTime = s.analysisTime ∧
    s'.pending = s.pending ∧ s'.file = none := by
  intro s t s' h hf
  cases h with
  | analyzeNoFile t2 h2 => exact ⟨rfl, rfl, rfl, rfl, rfl, hf⟩
  | analyzeDispatch t2 f hsome =>
    rw [hf] at hsome
    exact absurd hsome (by simp)

/-- C1 witness: the amended statement applied at the initial state. -/
theorem C1_witness :
    (handleAnalyzeGuard initC).error = some noFileMsg ∧
    (handleAnalyzeGuard initC).appState = initC.appState ∧
    (handleAnalyzeGuard initC).analysis = initC.analysis ∧
    (handleAnalyzeGuard initC).analysisTime = initC.analysisTime ∧
    (handleAnalyzeGuard initC).pending = initC.pending ∧
    (handleAnalyzeGuard initC).file = none :=
  C1_theorem initC 0 _ (CStep.analyzeNoFile initC 0 rfl) rfl

/-- C2 (counterexample): the state reached from the initial state by
invoking `handleAnalyze` with no file present has a non-null error message
while its workflow state is not `ERROR`, refuting the claimed invariant
over all reachable controller states. -/
theorem C2_counterexample :
    CReach (handleAnalyzeGuard initC) ∧
    (handleAnalyzeGuard initC).error.isSome = true ∧
    ((handleAnalyzeGuard initC).appState == WState.error) = false := by
  refine ⟨?_, rfl, rfl⟩
  refine CReachW.step CReachW.init ?_ (CStep.analyzeNoFile initC 0 rfl)
  exact trivial

/-- Auxiliary invariant for C2: under `guardSerial`, in every reachable
state the analysis is non-null only in `SUCCESS`, the error message is
non-null only in `ERROR`, neither field is populated while a call is in
flight, and at most one call is in flight. -/
theorem serialInv_reach : ∀ s, CReachW guardSerial s → serialInv s := by
  intro s0 h
  induction h with
  | init => refine ⟨?_, ?_, ?_, ?_⟩ <;> simp [initC]
  | @step s e s' hr hg hstep ih =>
    obtain ⟨ih1, ih2, ih3, ih4⟩ := ih
    cases hstep with
    | fileChange f =>
      refine ⟨fun hA => absurd rfl hA, fun hE => absurd rfl hE,
        fun _ => ⟨rfl, rfl⟩, ih4⟩
    | analyzeNoFile t hnone =>
      have hg2 : s.file ≠ none ∧ s.pending = [] := hg
      exact absurd hnone hg2.1
    | analyzeDispatch t f hsome =>
      have hg2 : s.file ≠ none ∧ s.pending = [] := hg
      refine ⟨fun hA => absurd rfl hA, fun hE => absurd rfl hE,
        fun _ => ⟨rfl, rfl⟩, ?_⟩
      show (s.pending ++ [t]).length ≤ 1
      rw [hg2.2]
      simp
    | completeOk t₁ t₂ r p₁ p₂ hp =>
      have hpend : s.pending ≠ [] := by rw [hp]; simp
      obtain ⟨ha, he⟩ := ih3 hpend
      have h4 := ih4
      rw [hp] at h4
      have h1 : p₁ = [] := by
        cases p₁ with
        | nil => rfl
        | cons a as => simp at h4
      subst h1
      have h2 : p₂ = [] := by
        cases p₂ with
        | nil => rfl
        | cons a as => simp at h4
      subst h2
      exact ⟨fun _ => rfl, fun hE => absurd he hE, fun hP => absurd rfl hP,
        by simp [handleAnalyzeResolve]⟩
    | completeErr t₁ m p₁ p₂ hp =>
      have hpend : s.pending ≠ [] := by rw [hp]; simp
      obtain ⟨ha, he⟩ := ih3 hpend
      have h4 := ih4
      rw [hp] at h4
      have h1 : p₁ = [] := by
        cases p₁ with
        | nil => rfl
        | cons a as => simp at h4
      subst h1
      have h2 : p₂ = [] := by
        cases p₂ with
        | nil => rfl
        | cons a as => simp at h4
      subst h2
      exact ⟨fun hA => absurd ha hA, fun _ => rfl, fun hP => absurd rfl hP,
        by simp [handleAnalyzeReject]⟩
    | reset =>
      refine ⟨fun hA => absurd rfl hA, fun hE => absurd rfl hE,
        fun _ => ⟨rfl, rfl⟩, ih4⟩
    | modeSwitch m =>
      refine ⟨fun hA => absurd rfl hA, fun hE => absurd rfl hE,
        fun _ => ⟨rfl, rfl⟩, ih4⟩

/-- C2 (amended): provided `handleAnalyze` is only ever invoked while a
file is present and no earlier analysis call is still unresolved (the
serialization the UI's disabled-button logic is intended to provide), every
reachable controller state has a non-null AnalysisResult only in the
`SUCCESS` workflow state and a non-null error message only in the `ERROR`
workflow state. -/
theorem C2_theorem : ∀ s, CReachW guardSerial s →
    (s.analysis ≠ none → s.appState = .success) ∧
    (s.error ≠ none → s.appState = .error) :=
  fun s h => ⟨(serialInv_reach s h).1, (serialInv_reach s h).2.1⟩

/-- C2 witness: the amended statement applied at the serially-reachable
state produced by a file selection, a dispatch and a successful
resolution. -/
theorem C2_witness :
    (handleAnalyzeResolve (handleAnalyzeDispatch (handleFileChange initC (some f0)) 0)
        (2 - 0) Json.jnull []).appState = WState.success := by
  have h1 : CReachW guardSerial (handleFileChange initC (some f0)) := by
    refine CReachW.step CReachW.init ?_ (CStep.fileChange initC (some f0))
    exact trivial
  have h2 : CReachW guardSerial
      (handleAnalyzeDispatch (handleFileChange initC (some f0)) 0) := by
    refine CReachW.step h1 ?_ (CStep.analyzeDispatch _ 0 f0 rfl)
    exact ⟨by simp [handleFileChange], rfl⟩
  have h3 : CReachW guardSerial
      (handleAnalyzeResolve (handleAnalyzeDispatch (handleFileChange initC (some f0)) 0)
        (2 - 0) Json.jnull []) := by
    refine CReachW.step h2 ?_ (CStep.completeOk _ 0 2 Json.jnull [] [] rfl)
    exact trivial
  exact (C2_theorem _ h3).1 (by simp [handleAnalyzeResolve])

/-- C6: a successful analysis from `Idle` with a file present (a) enters
`ANALYZING` with the analysis, error and duration cleared and the call
dispatched; (b) on resolution enters `SUCCESS` with the AnalysisResult and
the duration `endTime - startTime` set together in the same step, and the
duration is non-negative whenever the clock is monotone (`t₁ ≤ t₂`); and
(c) a step writes a non-null duration only when it enters `SUCCESS`
together with a non-null AnalysisResult (every other write clears it). -/
theorem C6_theorem :
    (∀ (s : CState) (t : ℚ) (s' : CState), CStep s (.analyze t) s' →
      s.appState = .idle → s.file ≠ none →
      s'.appState = .analyzing ∧ s'.error = none ∧ s'.analysis = none ∧
      s'.analysisTime = none ∧ s'.pending = s.pending ++ [t]) ∧
    (∀ (s : CState) (t₁ t₂ : ℚ) (r : Json) (s' : CState),
      CStep s (.completeOk t₁ t₂ r) s' →
      s'.appState = .success ∧ s'.analysis = some r ∧
      s'.analysisTime = some (t₂ - t₁) ∧
      (t₁ ≤ t₂ → ∃ d, s'.analysisTime = some d ∧ 0 ≤ d)) ∧
    (∀ (s : CState) (e : CEvent) (s' : CState), CStep s e s' →
      s'.analysisTime ≠ s.analysisTime →
      s'.analysisTime = none ∨ (s'.appState = .success ∧ s'.analysis ≠ none)) := by
  refine ⟨?_, ?_, ?_⟩
  · intro s t s' h hidle hfile
    cases h with
    | analyzeNoFile t2 hnone => exact absurd hnone hfile
    | analyzeDispatch t2 f hsome => exact ⟨rfl, rfl, rfl, rfl, rfl⟩
  · intro s t₁ t₂ r s' h
    cases h with
    | completeOk p₁ p₂ hp =>
      exact ⟨rfl, rfl, rfl, fun hle => ⟨t₂ - t₁, rfl, by linarith⟩⟩
  · intro s e s' h hne
    cases h with
    | fileChange f => exact Or.inl rfl
    | analyzeNoFile t hnone => exact absurd rfl hne
    | analyzeDispatch t f hsome => exact Or.inl rfl
    | completeOk t₁ t₂ r p₁ p₂ hp => exact Or.inr ⟨rfl, by simp [handleAnalyzeResolve]⟩
    | completeErr t₁ m p₁ p₂ hp => exact absurd rfl hne
    | reset => exact Or.inl rfl
    | modeSwitch m => exact Or.inl rfl

/-- C6 witness: the resolution part applied at a state with one call in
flight, with the clock hypothesis discharged at `1 ≤ 3`. -/
theorem C6_witness :
    (handleAnalyzeResolve sW (3 - 1) Json.jnull []).appState = WState.success ∧
    (handleAnalyzeResolve sW (3 - 1) Json.jnull []).analysis = some Json.jnull ∧
    (handleAnalyzeResolve sW (3 - 1) Json.jnull []).analysisTime = some ((3 : ℚ) - 1) ∧
    ∃ d, (handleAnalyzeResolve sW (3 - 1) Json.jnull []).analysisTime = some d ∧ 0 ≤ d := by
  have h := C6_theorem.2.1 sW 1 3 Json.jnull _ (CStep.completeOk sW 1 3 Json.jnull [] [] rfl)
  exact ⟨h.1, h.2.1, h.2.2.1, h.2.2.2 (by norm_num)⟩

/-- C7: `handleReset`, and a mode-switch tab click (which runs
`handleReset` then sets the mode), send every state to `Idle` with the
file, the analysis, the error message and the duration all cleared. -/
theorem C7_theorem :
    (∀ (s s' : CState), CStep s .reset s' →
      s'.file = none ∧ s'.analysis = none ∧ s'.error = none ∧
      s'.analysisTime = none ∧ s'.appState = .idle) ∧
    (∀ (s : CState) (m : InputMode) (s' : CState), CStep s (.modeSwitch m) s' →
      s'.file = none ∧ s'.analysis = none ∧ s'.error = none ∧
      s'.analysisTime = none ∧ s'.appState = .idle ∧ s'.inputMode = m) := by
  constructor
  · intro s s' h
    cases h
    exact ⟨rfl, rfl, rfl, rfl, rfl⟩
  · intro s m s' h
    cases h
    exact ⟨rfl, rfl, rfl, rfl, rfl, rfl⟩

/-- C7 witness: both parts applied at the state with one call in flight
(an interrupted `ANALYZING` state). -/
theorem C7_witness :
    ((handleReset sW).file = none ∧ (handleReset sW).analysis = none ∧
      (handleReset sW).error = none ∧ (handleReset sW).analysisTime = none ∧
      (handleReset sW).appState = WState.idle) ∧
    ((switchMode sW InputMode.record).file = none ∧
      (switchMode sW InputMode.record).analysis = none ∧
      (switchMode sW InputMode.record).error = none ∧
      (switchMode sW InputMode.record).analysisTime = none ∧
      (switchMode sW InputMode.record).appState = WState.idle ∧
      (switchMode sW InputMode.record).inputMode = InputMode.record) :=
  ⟨C7_theorem.1 sW _ (CStep.reset sW),
   C7_theorem.2 sW InputMode.record _ (CStep.modeSwitch sW InputMode.record)⟩

/-- C10 (counterexample): dispatch an analysis with a file present, clear
the file while `ANALYZING` (allowed: `handleFileChange(null)` does not
change the workflow state), then invoke `handleAnalyze` again — a state is
reached that is `ANALYZING` with a non-null error message, refuting the
claim that nothing sets those fields while the state remains `ANALYZING`
(the no-file guard branch of `handleAnalyze` does). -/
theorem C10_counterexample :
    CReach (handleAnalyzeGuard (handleFileChange
      (handleAnalyzeDispatch (handleFileChange initC (some f0)) 0) none)) ∧
    (handleAnalyzeGuard (handleFileChange
      (handleAnalyzeDispatch (handleFileChange initC (some f0)) 0) none)).appState =
      WState.analyzing ∧
    (handleAnalyzeGuard (handleFileChange
      (handleAnalyzeDispatch (handleFileChange initC (some f0)) 0) none)).error.isSome =
      true := by
  refine ⟨?_, rfl, rfl⟩
  have h1 : CReach (handleFileChange initC (some f0)) := by
    refine CReachW.step CReachW.init ?_ (CStep.fileChange initC (some f0))
    exact trivial
  have h2 : CReach (handleAnalyzeDispatch (handleFileChange initC (some f0)) 0) := by
    refine CReachW.step h1 ?_ (CStep.analyzeDispatch _ 0 f0 rfl)
    exact trivial
  have h3 : CReach (handleFileChange
      (handleAnalyzeDispatch (handleFileChange initC (some f0)) 0) none) := by
    refine CReachW.step h2 ?_ (CStep.fileChange _ none)
    exact trivial
  refine CReachW.step h3 ?_ (CStep.analyzeNoFile _ 1 rfl)
  exact trivial

/-- C10 (amended): provided `handleAnalyze` is only ever invoked while a
file is present (as the Analyze button's disabling enforces), every
reachable `ANALYZING` state has the analysis, the error message and the
duration all null: the dispatch clears all three, and no other operation
can set any of them while the state remains `ANALYZING`. -/
theorem C10_theorem : ∀ s, CReachW guardFilePresent s →
    s.appState = .analyzing →
    s.analysis = none ∧ s.error = none ∧ s.analysisTime = none := by
  intro s0 h
  induction h with
  | init => intro hs; exact absurd hs (by decide)
  | @step s e s' hr hg hstep ih =>
    intro hs
    cases hstep with
    | fileChange f => exact ⟨rfl, rfl, rfl⟩
    | analyzeNoFile t hnone =>
      have hg2 : s.file ≠ none := hg
      exact absurd hnone hg2
    | analyzeDispatch t f hsome => exact ⟨rfl, rfl, rfl⟩
    | completeOk t₁ t₂ r p₁ p₂ hp => exact WState.noConfusion hs
    | completeErr t₁ m p₁ p₂ hp => exact WState.noConfusion hs
    | reset => exact WState.noConfusion hs
    | modeSwitch m => exact WState.noConfusion hs

/-- C10 witness: the amended statement applied just after a guarded
dispatch. -/
theorem C10_witness :
    (handleAnalyzeDispatch (handleFileChange initC (some f0)) 0).analysis = none ∧
    (handleAnalyzeDispatch (handleFileChange initC (some f0)) 0).error = none ∧
    (handleAnalyzeDispatch (handleFileChange initC (some f0)) 0).analysisTime = none := by
  have h1 : CReachW guardFilePresent (handleFileChange initC (some f0)) := by
    refine CReachW.step CReachW.init ?_ (CStep.fileChange initC (some f0))
    exact trivial
  have h2 : CReachW guardFilePresent
      (handleAnalyzeDispatch (handleFileChange initC (some f0)) 0) := by
    refine CReachW.step h1 ?_ (CStep.analyzeDispatch _ 0 f0 rfl)
    exact (by simp [handleFileChange] : (handleFileChange initC (some f0)).file ≠ none)
  exact C10_theorem _ h2 rfl

/-- C5 (counterexample): two start clicks both issued while no session is
active (the start control is rendered both times), whose microphone grants
resolve afterwards, produce a reachable state with two unstopped streams —
the first session's stream is clobbered and leaked, so it is not true that
at most one RecordingSession is active at a time. -/
theorem C5_counterexample :
    RReach (handleStartGranted (handleStartGranted
      (handleStartClick (handleStartClick initR 0) 1) 5 11 "audio/webm" [1]) 7 13 "" []) ∧
    (handleStartGranted (handleStartGranted
      (handleStartClick (handleStartClick initR 0) 1) 5 11 "audio/webm" [1]) 7 13 "" []).activeStreams =
      [5, 7] ∧
    decide ((handleStartGranted (handleStartGranted
      (handleStartClick (handleStartClick initR 0) 1) 5 11 "audio/webm" [1]) 7 13 "" []).activeStreams.length ≤ 1) =
      false := by
  refine ⟨?_, rfl, rfl⟩
  have h1 : RReach (handleStartClick initR 0) :=
    RReach_step RReachW.init (RStep.clickStart initR 0 rfl (by simp [initR, handleStartClick]))
  have h2 : RReach (handleStartClick (handleStartClick initR 0) 1) :=
    RReach_step h1 (RStep.clickStart _ 1 rfl (by simp [initR, handleStartClick]))
  have h3 : RReach (handleStartGranted
      (handleStartClick (handleStartClick initR 0) 1) 5 11 "audio/webm" [1]) :=
    RReach_step h2 (RStep.grant _ 0 5 11 "audio/webm" [] [1] rfl
      (by simp [initR, handleStartClick]) (by simp [initR, handleStartClick]))
  exact RReach_step h3 (RStep.grant _ 1 7 13 "" [] [] rfl
    (by simp [initR, handleStartClick, handleStartGranted]) (by simp [initR, handleStartClick, handleStartGranted]))

/-- Auxiliary invariant for C5: under `guardSerialStart`, a reachable
recorder state has either no unstopped stream, or exactly the one held by
the live session; no unstopped stream exists while a grant is pending; and
at most one grant is pending. -/
theorem startInv_reach : ∀ s, RReachW guardSerialStart s → startInv s := by
  intro s0 h
  induction h with
  | init => exact ⟨Or.inl ⟨rfl, rfl⟩, fun h => absurd rfl h, by simp [initR]⟩
  | @step s e s' hr hg hstep ih =>
    obtain ⟨ih1, ih2, ih3⟩ := ih
    cases hstep with
    | clickStart req hrec hfresh =>
      have hg2 : s.pendingReq = [] := hg
      have hleft : s.activeStreams = [] ∧ s.stream = none := by
        cases ih1 with
        | inl h => exact h
        | inr h =>
          obtain ⟨sid, _, _, hrec2⟩ := h
          rw [hrec] at hrec2
          exact Bool.noConfusion hrec2
      refine ⟨Or.inl hleft, fun _ => hleft, ?_⟩
      show (s.pendingReq ++ [req]).length ≤ 1
      rw [hg2]
      simp
    | clickStartUnsupported hrec => exact ⟨ih1, ih2, ih3⟩
    | grant req sid tid mime p₁ p₂ hp hs ht =>
      have hpne : s.pendingReq ≠ [] := by rw [hp]; simp
      obtain ⟨hact, hstr⟩ := ih2 hpne
      have h3 := ih3
      rw [hp] at h3
      have h1 : p₁ = [] := by
        cases p₁ with
        | nil => rfl
        | cons a as => simp at h3
      subst h1
      have h2 : p₂ = [] := by
        cases p₂ with
        | nil => rfl
        | cons a as => simp at h3
      subst h2
      refine ⟨Or.inr ⟨sid, ?_, rfl, rfl⟩, fun hP => absurd rfl hP,
        by simp [handleStartGranted]⟩
      show s.activeStreams ++ [sid] = [sid]
      rw [hact]
      rfl
    | deny req p₁ p₂ hp =>
      have hpne : s.pendingReq ≠ [] := by rw [hp]; simp
      obtain ⟨hact, hstr⟩ := ih2 hpne
      have h3 := ih3
      rw [hp] at h3
      have h1 : p₁ = [] := by
        cases p₁ with
        | nil => rfl
        | cons a as => simp at h3
      subst h1
      have h2 : p₂ = [] := by
        cases p₂ with
        | nil => rfl
        | cons a as => simp at h3
      subst h2
      have hact' : (handleStartDenied s ([] ++ [])).activeStreams = [] := by
        show (match s.stream with
          | some sid => s.activeStreams.erase sid
          | none => s.activeStreams) = []
        rw [hstr, hact]
      exact ⟨Or.inl ⟨hact', rfl⟩, fun hP => absurd rfl hP,
        by simp [handleStartDenied, cleanupRecording]⟩
    | data c mr h => exact ⟨ih1, ih2, ih3⟩
    | tick t h => exact ⟨ih1, ih2, ih3⟩
    | clickStop ts mr h =>
      have hact' : (handleStopRecording s ts).activeStreams = [] := by
        show (match s.stream with
          | some sid => s.activeStreams.erase sid
          | none => s.activeStreams) = []
        cases ih1 with
        | inl hl => rw [hl.2, hl.1]
        | inr hr2 =>
          obtain ⟨sid, hact, hstr, _⟩ := hr2
          rw [hstr, hact]
          simp
      exact ⟨Or.inl ⟨hact', rfl⟩, fun hP => ⟨hact', rfl⟩, ih3⟩
    | unmount =>
      have hact' : (handleUnmount s).activeStreams = [] := by
        show (match s.stream with
          | some sid => s.activeStreams.erase sid
          | none => s.activeStreams) = []
        cases ih1 with
        | inl hl => rw [hl.2, hl.1]
        | inr hr2 =>
          obtain ⟨sid, hact, hstr, _⟩ := hr2
          rw [hstr, hact]
          simp
      exact ⟨Or.inl ⟨hact', rfl⟩, fun hP => ⟨hact', rfl⟩, ih3⟩

/-- C5 (amended): `handleStartRecording` itself performs no reentrancy
guard; what prevents a second start during an active session is that the
start control is rendered only while `isRecording = false` (so every start
click happens with no session marked active), and, provided microphone
grants never overlap a further start click (`guardSerialStart`), at most
one unstopped stream — one RecordingSession — exists in every reachable
state. Without that proviso two sessions can be live at once
(`C5_counterexample`). -/
theorem C5_theorem :
    (∀ s, RReachW guardSerialStart s → s.activeStreams.length ≤ 1) ∧
    (∀ (s : RState) (req : Nat) (s' : RState), RStep s (.clickStart req) s' →
      s.isRecording = false) := by
  constructor
  · intro s h
    rcases (startInv_reach s h).1 with ⟨hact, _⟩ | ⟨sid, hact, _, _⟩ <;> rw [hact] <;> simp
  · intro s req s' h
    cases h with
    | clickStart req2 hrec hfresh => exact hrec

/-- C5 witness: the invariant applied to the serially-reached single
session, and the rendering guard applied at the initial state. -/
theorem C5_witness :
    (handleStartGranted (handleStartClick initR 0) 5 11 "audio/webm" []).activeStreams.length ≤ 1 ∧
    initR.isRecording = false := by
  constructor
  · refine C5_theorem.1 _ ?_
    have h1 : RReachW guardSerialStart (handleStartClick initR 0) := by
      refine RReachW.step RReachW.init ?_
        (RStep.clickStart initR 0 rfl (by simp [initR]))
      exact rfl
    refine RReachW.step h1 ?_
      (RStep.grant _ 0 5 11 "audio/webm" [] [] rfl (by simp [initR, handleStartClick])
        (by simp [initR, handleStartClick]))
    exact trivial
  · exact C5_theorem.2 initR 0 _ (RStep.clickStart initR 0 rfl (by simp [initR]))

/-- C8: for every reachable recorder state, (a) a stop click with a live
recorder emits exactly one file assembled from the buffered chunks
(possibly zero of them) tagged with the recorder's negotiated MIME type
(`audio/webm` when unavailable), and releases the session — current stream
nulled and its tracks stopped, interval cleared and cancelled, chunk buffer
emptied, recorder ref nulled; (b) a permission failure and (c) a component
teardown release the session the same way. -/
theorem C8_theorem : ∀ s, RReach s →
    (∀ (ts : String) (s' : RState), RStep s (.clickStop ts) s' →
      s'.emitted = s.emitted ++ [⟨recordedName ts, effMime s.recorder, s.chunks⟩] ∧
      s'.isRecording = false ∧
      s'.stream = none ∧ (∀ sid, s.stream = some sid → sid ∉ s'.activeStreams) ∧
      s'.timer = none ∧ (∀ tid, s.timer = some tid → tid ∉ s'.activeTimers) ∧
      s'.chunks = [] ∧ s'.recorder = none) ∧
    (∀ (req : Nat) (s' : RState), RStep s (.deny req) s' →
      s'.micError = some micDeniedMsg ∧
      s'.stream = none ∧ (∀ sid, s.stream = some sid → sid ∉ s'.activeStreams) ∧
      s'.timer = none ∧ (∀ tid, s.timer = some tid → tid ∉ s'.activeTimers) ∧
      s'.chunks = [] ∧ s'.recorder = none) ∧
    (∀ s' : RState, RStep s .unmount s' →
      s'.stream = none ∧ (∀ sid, s.stream = some sid → sid ∉ s'.activeStreams) ∧
      s'.timer = none ∧ (∀ tid, s.timer = some tid → tid ∉ s'.activeTimers) ∧
      s'.chunks = [] ∧ s'.recorder = none) := by
  intro s hreach
  obtain ⟨hnds, hndt⟩ := nodup_reach s hreach
  refine ⟨?_, ?_, ?_⟩
  · intro ts s' h
    cases h with
    | clickStop mr hmr =>
      refine ⟨rfl, rfl, rfl, ?_, rfl, ?_, rfl, rfl⟩
      · intro sid hsid
        show sid ∉ (match s.stream with
          | some x => s.activeStreams.erase x
          | none => s.activeStreams)
        rw [hsid]
        exact not_mem_eraseSelf hnds
      · intro tid htid
        show tid ∉ (match s.timer with
          | some x => s.activeTimers.erase x
          | none => s.activeTimers)
        rw [htid]
        exact not_mem_eraseSelf hndt
  · intro req s' h
    cases h with
    | deny p₁ p₂ hp =>
      refine ⟨rfl, rfl, ?_, rfl, ?_, rfl, rfl⟩
      · intro sid hsid
        show sid ∉ (match s.stream with
          | some x => s.activeStreams.erase x
          | none => s.activeStreams)
        rw [hsid]
        exact not_mem_eraseSelf hnds
      · intro tid htid
        show tid ∉ (match s.timer with
          | some x => s.activeTimers.erase x
          | none => s.activeTimers)
        rw [htid]
        exact not_mem_eraseSelf hndt
  · intro s' h
    cases h with
    | unmount =>
      refine ⟨rfl, ?_, rfl, ?_, rfl, rfl⟩
      · intro sid hsid
        show sid ∉ (match s.stream with
          | some x => s.activeStreams.erase x
          | none => s.activeStreams)
        rw [hsid]
        exact not_mem_eraseSelf hnds
      · intro tid htid
        show tid ∉ (match s.timer with
          | some x => s.activeTimers.erase x
          | none => s.activeTimers)
        rw [htid]
        exact not_mem_eraseSelf hndt

/-- C8 witness: stopping the reachable session `sG`, whose chunk buffer is
empty and whose recorder reports no MIME type, emits the valid empty
recording tagged `audio/webm` and fully releases the stream and timer. -/
theorem C8_witness :
    (handleStopRecording sG "T").emitted =
      sG.emitted ++ [⟨recordedName "T", effMime sG.recorder, sG.chunks⟩] ∧
    (handleStopRecording sG "T").emitted = [⟨"recording-T.webm", "audio/webm", []⟩] ∧
    (handleStopRecording sG "T").isRecording = false ∧
    (handleStopRecording sG "T").stream = none ∧
    5 ∉ (handleStopRecording sG "T").activeStreams ∧
    (handleStopRecording sG "T").timer = none ∧
    11 ∉ (handleStopRecording sG "T").activeTimers ∧
    (handleStopRecording sG "T").chunks = [] ∧
    (handleStopRecording sG "T").recorder = none := by
  have hreach : RReach sG := by
    have h1 : RReach (handleStartClick initR 0) :=
      RReach_step RReachW.init (RStep.clickStart initR 0 rfl (by simp [initR]))
    exact RReach_step h1 (RStep.grant _ 0 5 11 "" [] [] rfl
      (by simp [initR, handleStartClick]) (by simp [initR, handleStartClick]))
  have h := (C8_theorem sG hreach).1 "T" _ (RStep.clickStop sG "T" ⟨5, ""⟩ rfl)
  exact ⟨h.1, by rfl, h.2.1, h.2.2.1, h.2.2.2.1 5 rfl, h.2.2.2.2.1,
    h.2.2.2.2.2.1 11 rfl, h.2.2.2.2.2.2.1, h.2.2.2.2.2.2.2⟩

/-- Truthiness implies presence. -/
theorem truthy_isSome {o : Option Json} (h : truthy o = true) : o.isSome = true := by
  cases o with
  | none => exact Bool.noConfusion h
  | some v => rfl

/-- A truthy string value is a non-empty string. -/
theorem truthy_jstr_ne {cs : List Char} (h : truthy (some (.jstr cs)) = true) :
    cs ≠ [] := by
  cases cs with
  | nil => exact Bool.noConfusion h
  | cons a as => intro hh; exact List.noConfusion hh

/-- C3: the response processing of `getSpeechAnalysis` returns a result
only when the parsed object passes all four checks — truthy `transcript`
and `summary` (for string values: non-empty), `grammarAnalysis` an array
(possibly empty), `sentiment` present (truthy) — and it returns exactly the
parsed object, never a repaired or partial one; when the sanitized text is
not valid JSON, or any check fails, it raises the wrapped
`MalformedResponseError` (`syntaxErr` from `JSON.parse`, `incompleteData`
from the validation). -/
theorem C3_theorem : ∀ t : List Char,
    (∀ v, getSpeechAnalysis t = .ok v →
      parseJson (fenceExtract (jsTrim t)) = some v ∧
      truthy (getField v transcriptKey) = true ∧
      truthy (getField v summaryKey) = true ∧
      isArrayVal (getField v grammarKey) = true ∧
      (getField v sentimentKey).isSome = true ∧
      (∀ cs, getField v transcriptKey = some (.jstr cs) → cs ≠ []) ∧
      (∀ cs, getField v summaryKey = some (.jstr cs) → cs ≠ [])) ∧
    (parseJson (fenceExtract (jsTrim t)) = none →
      getSpeechAnalysis t = .error .syntaxErr) ∧
    (∀ v, parseJson (fenceExtract (jsTrim t)) = some v → validOk v = false →
      getSpeechAnalysis t = .error .incompleteData) := by
  intro t
  refine ⟨?_, ?_, ?_⟩
  · intro v hok
    simp only [getSpeechAnalysis] at hok
    cases hp : parseJson (fenceExtract (jsTrim t)) with
    | none =>
      rw [hp] at hok
      exact Except.noConfusion hok
    | some w =>
      rw [hp] at hok
      have hok2 : (if validOk w = true then (Except.ok w : Except RespErr Json)
          else Except.error RespErr.incompleteData) = Except.ok v := hok
      cases hval : validOk w with
      | false =>
        rw [hval] at hok2
        simp at hok2
      | true =>
        rw [hval] at hok2
        simp at hok2
        subst hok2
        have hv2 := hval
        simp only [validOk, Bool.and_eq_true] at hv2
        obtain ⟨⟨⟨h1, h2⟩, h3⟩, h4⟩ := hv2
        refine ⟨rfl, h1, h2, h3, truthy_isSome h4, ?_, ?_⟩
        · intro cs hcs
          rw [hcs] at h1
          exact truthy_jstr_ne h1
        · intro cs hcs
          rw [hcs] at h2
          exact truthy_jstr_ne h2
  · intro hnone
    simp only [getSpeechAnalysis]
    rw [hnone]
  · intro v hsome hbad
    simp only [getSpeechAnalysis]
    rw [hsome]
    show (if validOk v = true then (Except.ok v : Except RespErr Json)
      else Except.error RespErr.incompleteData) = Except.error RespErr.incompleteData
    rw [hbad]
    simp

/-- C3 witness: the success branch applied at the complete valid response
`tGood`. -/
theorem C3_witness :
    parseJson (fenceExtract (jsTrim tGood)) = some vGood ∧
    truthy (getField vGood transcriptKey) = true ∧
    truthy (getField vGood summaryKey) = true ∧
    isArrayVal (getField vGood grammarKey) = true ∧
    (getField vGood sentimentKey).isSome = true := by
  have h := (C3_theorem tGood).1 vGood (by rfl)
  exact ⟨h.1, h.2.1, h.2.2.1, h.2.2.2.1, h.2.2.2.2.1⟩

/-- C9: the validation never inspects `sentiment.label` nor the fields of
`grammarAnalysis` elements — the response `tBad`, whose label `"Angry"`
lies outside the documented closed set and whose single grammar entry has
none of `original`/`issue`/`suggestion`/`tip`, is still returned as a
successful result, because only truthiness of `transcript`, `summary` and
`sentiment` and array-ness of `grammarAnalysis` are checked. -/
theorem C9_theorem :
    getSpeechAnalysis tBad = Except.ok vBad ∧
    getField vBad sentimentKey =
      some (Json.jobj [ (labelKey, Json.jstr ("Angry".toList)),
                        (explanationKey, Json.jstr ("x".toList)) ]) ∧
    labelAllowed ("Angry".toList) = false ∧
    getField vBad grammarKey = some (Json.jarr [Json.jobj []]) ∧
    getField (Json.jobj []) originalKey = none ∧
    getField (Json.jobj []) issueKey = none ∧
    getField (Json.jobj []) suggestionKey = none ∧
    getField (Json.jobj []) tipKey = none := by
  refine ⟨by rfl, rfl, by rfl, rfl, rfl, rfl, rfl, rfl⟩

/-- `dropWhile` keeps a list whose head fails the predicate. -/
theorem dropWhile_cons_false {p : Char → Bool} {a : Char} {l : List Char}
    (h : p a = false) : List.dropWhile p (a :: l) = a :: l := by
  simp [List.dropWhile_cons, h]

/-- `rdropWhile` keeps a list whose last element fails the predicate. -/
theorem rdropWhile_append_false {p : Char → Bool} {a : Char} {l : List Char}
    (h : p a = false) : rdropWhile p (l ++ [a]) = l ++ [a] := by
  unfold rdropWhile
  rw [List.reverse_append]
  simp only [List.reverse_singleton, List.singleton_append]
  rw [dropWhile_cons_false h]
  simp

/-- `rdropWhile` removes a trailing element satisfying the predicate. -/
theorem rdropWhile_append_true {p : Char → Bool} {a : Char} {l : List Char}
    (h : p a = true) : rdropWhile p (l ++ [a]) = rdropWhile p l := by
  unfold rdropWhile
  rw [List.reverse_append]
  simp only [List.reverse_singleton, List.singleton_append]
  rw [List.dropWhile_cons, h]
  simp

/-- The head surviving `dropWhile` fails the predicate. -/
theorem dropWhile_head_false {p : Char → Bool} :
    ∀ {l : List Char} {a : Char} {u : List Char},
      List.dropWhile p l = a :: u → p a = false := by
  intro l
  induction l with
  | nil => intro a u h; exact List.noConfusion h
  | cons b l2 ih =>
    intro a u h
    rw [List.dropWhile_cons] at h
    cases hb : p b with
    | true => rw [hb] at h; simp at h; exact ih h
    | false =>
      rw [hb] at h
      simp at h
      rw [← h.1]
      exact hb

/-- A pattern starts every list it prefixes. -/
theorem startsWithL_append_self : ∀ (p l : List Char), startsWithL p (p ++ l) = true := by
  intro p
  induction p with
  | nil => intro l; rfl
  | cons a ps ih =>
    intro l
    show (a == a && startsWithL ps (ps ++ l)) = true
    rw [ih]
    simp

/-- A pattern ends every list it suffixes. -/
theorem endsWithL_append_self (p l : List Char) : endsWithL p (l ++ p) = true := by
  unfold endsWithL
  rw [List.reverse_append]
  exact startsWithL_append_self p.reverse l.reverse

/-- A string not opening with a triple backtick passes the fence-stripping
step unchanged (the anchored regex cannot match). -/
theorem fenceExtract_no {s : List Char} (h : startsWithL tickFence s = false) :
    fenceExtract s = s := by
  unfold fenceExtract
  rw [h]
  simp

/-- C4: fence-stripping is idempotent with respect to parsing — for every
text `t` whose trimmed form is a JSON object text (opens with `{`),
processing the fenced form `"```json\n" ++ t ++ "\n```"` and processing the
bare `t` run the identical parse-and-validate pipeline on the identical
sanitized text, hence yield identical results. -/
theorem C4_theorem : ∀ t : List Char, (jsTrim t).head? = some lbrace →
    getSpeechAnalysis (fencedWrap t) = getSpeechAnalysis t := by
  intro t hhead
  -- the trimmed bare text opens with a left brace
  obtain ⟨u, hjt⟩ : ∃ u, jsTrim t = lbrace :: u := by
    cases hjt : jsTrim t with
    | nil => rw [hjt] at hhead; exact Option.noConfusion hhead
    | cons a u2 =>
      rw [hjt] at hhead
      simp at hhead
      exact ⟨u2, by rw [hhead]⟩
  -- the bare text is not all whitespace
  have hne : List.dropWhile isJsStrWs t ≠ [] := by
    intro h0
    have h1 : jsTrim t = [] := by unfold jsTrim; rw [h0]; rfl
    rw [h1] at hjt
    exact List.noConfusion hjt
  obtain ⟨a, u2, hdw, hwa⟩ : ∃ a u2, List.dropWhile isJsStrWs t = a :: u2 ∧
      isJsStrWs a = false := by
    cases hdw : List.dropWhile isJsStrWs t with
    | nil => exact absurd hdw hne
    | cons a u2 => exact ⟨a, u2, rfl, dropWhile_head_false hdw⟩
  -- fencedWrap in fence-suffix form
  have hfw2 : fencedWrap t = ("```json\n".toList ++ (t ++ ['\n'])) ++ tickFence := by
    simp only [fencedWrap, List.append_assoc]
    rfl
  -- match condition pieces
  have hstart : startsWithL tickFence (fencedWrap t) = true := by
    rw [show fencedWrap t = tickFence ++ ("json\n".toList ++ (t ++ "\n```".toList)) from rfl]
    exact startsWithL_append_self _ _
  have hend : endsWithL tickFence (fencedWrap t) = true := by
    rw [hfw2]
    exact endsWithL_append_self _ _
  have hlen : 6 ≤ (fencedWrap t).length := by
    simp [fencedWrap]
  -- the captured core of the fenced form
  have hlen2 : (fencedWrap t).length - 6 = t.length + 6 := by
    simp [fencedWrap]
  have hcore : ((fencedWrap t).drop 3).take ((fencedWrap t).length - 6) =
      'j' :: 's' :: 'o' :: 'n' :: '\n' :: (t ++ ['\n']) := by
    rw [show (fencedWrap t).drop 3 =
      'j' :: 's' :: 'o' :: 'n' :: '\n' :: (t ++ "\n```".toList) from rfl, hlen2]
    rw [show ('j' :: 's' :: 'o' :: 'n' :: '\n' :: (t ++ "\n```".toList) : List Char) =
      ('j' :: 's' :: 'o' :: 'n' :: '\n' :: (t ++ ['\n'])) ++ tickFence by
        simp only [List.cons_append, List.append_assoc, List.singleton_append]
        rfl]
    apply List.take_left'
    simp
  -- the captured group, trimmed, is the trimmed bare text
  have hg2 : jsTrim ((('j' :: 's' :: 'o' :: 'n' :: '\n' :: (t ++ ['\n'])
        : List Char).dropWhile isWordChar).dropWhile isJsStrWs) = jsTrim t := by
    rw [show (('j' :: 's' :: 'o' :: 'n' :: '\n' :: (t ++ ['\n'])
      : List Char).dropWhile isWordChar) = '\n' :: (t ++ ['\n']) from rfl]
    rw [show (('\n' :: (t ++ ['\n']) : List Char).dropWhile isJsStrWs) =
      List.dropWhile isJsStrWs (t ++ ['\n']) from rfl]
    rw [List.dropWhile_append, hdw]
    show jsTrim ((a :: u2) ++ ['\n']) = jsTrim t
    unfold jsTrim
    rw [show List.dropWhile isJsStrWs ((a :: u2) ++ ['\n']) = (a :: u2) ++ ['\n'] from
      dropWhile_cons_false hwa]
    rw [rdropWhile_append_true (by decide)]
    rw [← hdw]
  -- trimming the fenced form is the identity
  have hA : jsTrim (fencedWrap t) = fencedWrap t := by
    unfold jsTrim
    rw [show List.dropWhile isJsStrWs (fencedWrap t) = fencedWrap t from
      dropWhile_cons_false (by decide)]
    have hfw3 : fencedWrap t =
        ("```json\n".toList ++ (t ++ "\n``".toList)) ++ [Char.ofNat 96] := by
      simp only [fencedWrap, List.append_assoc]
      rfl
    rw [hfw3]
    exact rdropWhile_append_false (by decide)
  -- fence extraction on the fenced form yields the trimmed bare text
  have hcond : (startsWithL tickFence (fencedWrap t) &&
      endsWithL tickFence (fencedWrap t) &&
      decide (6 ≤ (fencedWrap t).length)) = true := by
    rw [hstart, hend, decide_eq_true hlen]
    rfl
  have hB : fenceExtract (fencedWrap t) = jsTrim t := by
    unfold fenceExtract
    rw [if_pos hcond]
    simp only [hcore, hg2]
    rw [hjt]
    rfl
  -- fence extraction on the bare trimmed text is the identity
  have hC : fenceExtract (jsTrim t) = jsTrim t := by
    apply fenceExtract_no
    rw [hjt]
    rfl
  -- both pipelines parse and validate the same sanitized text
  unfold getSpeechAnalysis
  rw [hA, hB, hC]

/-- C4 witness: the idempotence applied at the concrete object text
`tGood`, whose trimmed form opens with a left brace. -/
theorem C4_witness :
    getSpeechAnalysis (fencedWrap tGood) = getSpeechAnalysis tGood :=
  C4_theorem tGood (by rfl)
